import Mathlib

set_option maxHeartbeats 1000000

/-!
Shallow embedding of `src/lb7.py` (Flask/SocketIO currency-rate observer).

The registry `CurrencyObserver.observers` is a Python dict mapping a session
id to `{'observer': Client(sid), 'currency': currency_code}`.  Since the
stored `Client` object carries nothing but the sid that is also the key, we
embed the registry as an ordered association list `List (String × String)`
of `(sid, currency_code)` pairs, with Python-dict semantics: insertion order
is preserved, updating an existing key keeps its position, iteration follows
that order.

Exceptions are explicit: every operation of the source that can raise is
embedded as a function that also returns the propagated exception, if any.
`socketio.emit` (inside `Client.update`) is an external call that may fail;
it is modelled by a parameter `emitFails : String → Bool` telling, per sid,
whether the transport send raises.  `requests.get(...).json()` is the other
external call; its outcome is the `FetchResult` parameter of the poll-loop
step.
-/

/-- Exceptions the embedded code can raise: `KeyError` and `TypeError` from
subscripting/`in` on JSON data, a transport failure from `socketio.emit`,
and a network/parse failure from `requests.get(...).json()`. -/
inductive PyErr where
  | keyError
  | typeError
  | emitError
  | networkError
deriving DecidableEq

/-- JSON-like values as returned by `response.json()`: numbers and objects
(string keyed, ordered like a Python dict).  These two constructors cover
every shape the claims exercise. -/
inductive Json where
  | num (q : Rat)
  | obj (fields : List (String × Json))

/-- First-match association-list lookup, i.e. Python dict lookup. -/
def alookup {α : Type} (k : String) : List (String × α) → Option α
  | [] => none
  | (k₁, v) :: rest => if k₁ = k then some v else alookup k rest

/-- Python subscript `j[k]`: on a dict, the value (raising `KeyError` when
the key is absent); on a number, `TypeError` (not subscriptable). -/
def pySubscript : Json → String → Except PyErr Json
  | .num _, _ => .error .typeError
  | .obj fs, k =>
    match alookup k fs with
    | some v => .ok v
    | none => .error .keyError

/-- Python membership `k in j`: on a dict, key membership; on a number,
`TypeError` (not iterable). -/
def pyContains : Json → String → Except PyErr Bool
  | .num _, _ => .error .typeError
  | .obj fs, k => .ok (alookup k fs).isSome

/-- Python dict assignment `d[k] = v`: replaces the value in place if the
key exists (keeping its position), otherwise appends. -/
def dictInsert (k v : String) : List (String × String) → List (String × String)
  | [] => [(k, v)]
  | (k₁, v₁) :: rest => if k₁ = k then (k, v) :: rest else (k₁, v₁) :: dictInsert k v rest

/-- Python `del d[k]` for a key known to be present: removes the first
(hence, in a dict, the only) entry with key `k`. -/
def dictRemove (k : String) : List (String × String) → List (String × String)
  | [] => []
  | (k₁, v₁) :: rest => if k₁ = k then rest else (k₁, v₁) :: dictRemove k rest

/-- Python `k in d` on the registry dict. -/
def containsKey (k : String) (st : List (String × String)) : Bool :=
  (alookup k st).isSome

/-- `CurrencyObserver.register(observer, currency_code)`:
`self.observers[observer.sid] = {'observer': observer, 'currency': currency_code}`.
(The `print` call is I/O with no effect on state.) -/
def CurrencyObserver.register (sid currency_code : String)
    (observers : List (String × String)) : List (String × String) :=
  dictInsert sid currency_code observers

/-- `CurrencyObserver.unregister(observer)`:
`if observer.sid in self.observers: del self.observers[observer.sid]`.
Total because the deletion is guarded by the membership test. -/
def CurrencyObserver.unregister (sid : String)
    (observers : List (String × String)) : List (String × String) :=
  if containsKey sid observers then dictRemove sid observers else observers

/-- The payload `currency_data` built in `CurrencyObserver.notify`:
`{'currency_code': .., 'current_rate': info['Value'], 'previous_rate': info['Previous']}`. -/
structure Payload where
  currency_code : String
  current_rate : Json
  previous_rate : Json

/-- One iteration of the loop body of `CurrencyObserver.notify` for the
entry `(sid, currency_code)`:

  `if currency_code in data['Valute']:` — may raise on malformed `data`;
  `currency_info = data['Valute'][currency_code]`;
  `currency_data = {...'Value'...'Previous'...}` — may raise on malformed info;
  `observer.update(currency_data)` — `socketio.emit`, may raise (modelled by
  `emitFails sid`).

Returns `ok (some delivery)` when a payload was delivered, `ok none` when the
code is absent from the snapshot (entry silently skipped), `error e` when the
iteration raised. -/
def evalEntry (emitFails : String → Bool) (data : Json) (sid currency_code : String) :
    Except PyErr (Option (String × Payload)) :=
  match pySubscript data "Valute" with
  | .error e => .error e
  | .ok valute =>
    match pyContains valute currency_code with
    | .error e => .error e
    | .ok false => .ok none
    | .ok true =>
      match pySubscript valute currency_code with
      | .error e => .error e
      | .ok info =>
        match pySubscript info "Value" with
        | .error e => .error e
        | .ok v =>
          match pySubscript info "Previous" with
          | .error e => .error e
          | .ok p =>
            if emitFails sid then .error .emitError
            else .ok (some (sid, ⟨currency_code, v, p⟩))

/-- The `for entry in self.observers.values():` loop of `notify`: runs the
entries in dict order, collecting the deliveries performed, and stops at the
first exception (which propagates, uncaught — the source has no `try`). -/
def notifyGo (emitFails : String → Bool) (data : Json) :
    List (String × String) → List (String × Payload) × Option PyErr
  | [] => ([], none)
  | (sid, currency_code) :: rest =>
    match evalEntry emitFails data sid currency_code with
    | .error e => ([], some e)
    | .ok none => notifyGo emitFails data rest
    | .ok (some d) =>
      let r := notifyGo emitFails data rest
      (d :: r.1, r.2)

/-- Observable outcome of a dispatch cycle: the registry afterwards, the
deliveries performed (in order), and the exception that propagated, if any. -/
structure NotifyResult where
  observers : List (String × String)
  sent : List (String × Payload)
  exn : Option PyErr

/-- `CurrencyObserver.notify(data)`.  The loop body only reads
`self.observers`, never writes it, so the registry component of the result
is the input registry. -/
def CurrencyObserver.notify (emitFails : String → Bool)
    (observers : List (String × String)) (data : Json) : NotifyResult :=
  let r := notifyGo emitFails data observers
  ⟨observers, r.1, r.2⟩

/-- Outcome of `get_currency_rates()`: either the parsed JSON document, or
an exception from `requests.get` / `response.json()` (network error,
malformed body). -/
inductive FetchResult where
  | ok (data : Json)
  | err (e : PyErr)

/-- One iteration of the `while True:` body of `currency_updater`:
`data = get_currency_rates()` then `observer.notify(data)`.  Neither call is
guarded by `try`, so a fetch failure propagates with zero deliveries, and a
`notify` failure propagates as `notify` left things. -/
def currency_updater_step (fetch : FetchResult) (emitFails : String → Bool)
    (observers : List (String × String)) : NotifyResult :=
  match fetch with
  | .err e => ⟨observers, [], some e⟩
  | .ok data => CurrencyObserver.notify emitFails observers data

/-- Whether the poll loop reaches `time.sleep(10)` and re-enters the loop
after this cycle: it does exactly when no exception propagated out of the
body (an uncaught exception terminates the `while True` loop and the
thread). -/
def loopReArms (fetch : FetchResult) (emitFails : String → Bool)
    (observers : List (String × String)) : Bool :=
  (currency_updater_step fetch emitFails observers).exn.isNone

/-- The fixed poll period: `time.sleep(10)`. -/
def pollInterval : Nat := 10

/-- A registry operation arriving from a connection-lifecycle event:
`handle_select_currency` calls `register`, `handle_disconnect` calls
`unregister`. -/
inductive RegistryOp where
  | reg (sid currency_code : String)
  | unreg (sid : String)

/-- Apply one lifecycle event to the registry. -/
def applyOp (st : List (String × String)) : RegistryOp → List (String × String)
  | .reg s c => CurrencyObserver.register s c st
  | .unreg s => CurrencyObserver.unregister s st

/-- Apply a finite sequence of lifecycle events, oldest first. -/
def applyOps (st : List (String × String)) (ops : List RegistryOp) :
    List (String × String) :=
  ops.foldl applyOp st

/-- The net effect of an event sequence on one sid, starting from a given
prior binding: the last operation touching `sid` wins. -/
def netEffectFrom (sid : String) (init : Option String) (ops : List RegistryOp) :
    Option String :=
  ops.foldl (fun acc op =>
    match op with
    | .reg s c => if s = sid then some c else acc
    | .unreg s => if s = sid then none else acc) init

/-- The net effect of an event sequence on one sid, starting from the empty
registry. -/
def netEffect (sid : String) (ops : List RegistryOp) : Option String :=
  netEffectFrom sid none ops

/-- The registry invariant: session ids (dict keys) are pairwise distinct. -/
def KeysNodup (st : List (String × String)) : Prop :=
  (st.map Prod.fst).Nodup

instance (st : List (String × String)) : Decidable (KeysNodup st) := by
  unfold KeysNodup; infer_instance

/-- Well-formedness of the `'Valute'` table of a snapshot, as `notify` needs
it: every entry's info object subscripts successfully at `'Value'` and
`'Previous'`. -/
def valuteWF (valute : List (String × Json)) : Bool :=
  valute.all (fun e =>
    (match pySubscript e.2 "Value" with | .ok _ => true | .error _ => false) &&
    (match pySubscript e.2 "Previous" with | .ok _ => true | .error _ => false))

/-- The concrete snapshot used by the spec's example:
`{"Valute": {"USD": {"Value": 90.0, "Previous": 89.5}}}` — the shape of the
document returned by the CBR endpoint that `notify` actually reads. -/
def goodData : Json :=
  .obj [("Valute", .obj [("USD",
    .obj [("Value", .num 90), ("Previous", .num 89.5)])])]

/-! ### Registry lemmas -/

theorem alookup_dictInsert (s c t : String) (st : List (String × String)) :
    alookup t (dictInsert s c st) = if s = t then some c else alookup t st := by
  induction st with
  | nil => simp [dictInsert, alookup]
  | cons hd tl ih =>
    obtain ⟨k₁, v₁⟩ := hd
    by_cases h₁ : k₁ = s
    · subst h₁
      by_cases h₂ : k₁ = t <;> simp [dictInsert, alookup, h₂]
    · by_cases h₂ : k₁ = t
      · subst h₂
        have : ¬ s = k₁ := fun h => h₁ h.symm
        simp [dictInsert, alookup, h₁, this]
      · simp [dictInsert, alookup, h₁, h₂, ih]

theorem alookup_eq_none_iff (k : String) (st : List (String × String)) :
    alookup k st = none ↔ k ∉ st.map Prod.fst := by
  induction st with
  | nil => simp [alookup]
  | cons hd tl ih =>
    obtain ⟨k₁, v₁⟩ := hd
    by_cases h : k₁ = k
    · subst h
      simp [alookup]
    · have h₂ : ¬ k = k₁ := fun he => h he.symm
      simp [alookup, h, h₂, ih]

theorem alookup_mem {α : Type} {k : String} {v : α} {st : List (String × α)}
    (h : alookup k st = some v) : (k, v) ∈ st := by
  induction st with
  | nil => simp [alookup] at h
  | cons hd tl ih =>
    obtain ⟨k₁, v₁⟩ := hd
    by_cases h₁ : k₁ = k
    · subst h₁
      simp [alookup] at h
      simp [h]
    · simp [alookup, h₁] at h
      exact List.mem_cons_of_mem _ (ih h)

theorem mem_iff_alookup {k c : String} {st : List (String × String)}
    (hnd : KeysNodup st) : (k, c) ∈ st ↔ alookup k st = some c := by
  constructor
  · intro hmem
    induction st with
    | nil => simp at hmem
    | cons hd tl ih =>
      obtain ⟨k₁, v₁⟩ := hd
      rcases List.mem_cons.mp hmem with heq | htl
      · rw [Prod.ext_iff] at heq
        obtain ⟨hk, hv⟩ := heq
        simp at hk hv
        subst hk; subst hv
        simp [alookup]
      · have hk₁ : k₁ ≠ k := by
          intro h
          subst h
          have : k₁ ∈ tl.map Prod.fst := List.mem_map.mpr ⟨(k₁, c), htl, rfl⟩
          exact (List.nodup_cons.mp hnd).1 this
        have hnd₂ : KeysNodup tl := (List.nodup_cons.mp hnd).2
        simp [alookup, hk₁]
        exact ih hnd₂ htl
  · exact alookup_mem

theorem map_fst_dictInsert (s c : String) (st : List (String × String)) :
    (dictInsert s c st).map Prod.fst =
      if containsKey s st then st.map Prod.fst else st.map Prod.fst ++ [s] := by
  induction st with
  | nil => simp [dictInsert, containsKey, alookup]
  | cons hd tl ih =>
    obtain ⟨k₁, v₁⟩ := hd
    by_cases h₁ : k₁ = s
    · subst h₁
      simp [dictInsert, containsKey, alookup]
    · simp only [dictInsert, h₁, if_false, List.map_cons, ih, containsKey, alookup]
      by_cases h₃ : (alookup s tl).isSome <;> simp [h₃]

theorem keysNodup_dictInsert (s c : String) {st : List (String × String)}
    (hnd : KeysNodup st) : KeysNodup (dictInsert s c st) := by
  unfold KeysNodup
  rw [map_fst_dictInsert]
  by_cases h : containsKey s st
  · simpa [h] using hnd
  · have hs : s ∉ st.map Prod.fst := by
      rw [← alookup_eq_none_iff]
      unfold containsKey at h
      cases hl : alookup s st with
      | none => rfl
      | some v => rw [hl] at h; simp at h
    rw [if_neg h, List.nodup_append]
    refine ⟨hnd, List.nodup_singleton s, ?_⟩
    intro a ha hb
    rw [List.mem_singleton] at hb
    subst hb
    exact hs ha

theorem map_fst_dictRemove_sublist (s : String) (st : List (String × String)) :
    ((dictRemove s st).map Prod.fst).Sublist (st.map Prod.fst) := by
  induction st with
  | nil => simp [dictRemove]
  | cons hd tl ih =>
    obtain ⟨k₁, v₁⟩ := hd
    by_cases h₁ : k₁ = s
    · subst h₁
      simp only [dictRemove, if_pos rfl, List.map_cons]
      exact List.sublist_cons_self k₁ (tl.map Prod.fst)
    · simp only [dictRemove, h₁, if_false, List.map_cons]
      exact ih.cons₂ k₁

theorem keysNodup_dictRemove (s : String) {st : List (String × String)}
    (hnd : KeysNodup st) : KeysNodup (dictRemove s st) :=
  List.Nodup.sublist (map_fst_dictRemove_sublist s st) hnd

theorem alookup_dictRemove (s t : String) {st : List (String × String)}
    (hnd : KeysNodup st) :
    alookup t (dictRemove s st) = if s = t then none else alookup t st := by
  induction st with
  | nil => simp [dictRemove, alookup]
  | cons hd tl ih =>
    obtain ⟨k₁, v₁⟩ := hd
    have hhd : k₁ ∉ tl.map Prod.fst := (List.nodup_cons.mp hnd).1
    have htl : KeysNodup tl := (List.nodup_cons.mp hnd).2
    by_cases h₁ : k₁ = s
    · subst h₁
      by_cases h₂ : k₁ = t
      · subst h₂
        simp [dictRemove, alookup, alookup_eq_none_iff, hhd]
      · simp [dictRemove, alookup, h₂]
    · by_cases h₂ : k₁ = t
      · subst h₂
        have : ¬ s = k₁ := fun h => h₁ h.symm
        simp [dictRemove, alookup, h₁, this]
      · simp [dictRemove, alookup, h₁, h₂, ih htl]

theorem alookup_unregister (s t : String) {st : List (String × String)}
    (hnd : KeysNodup st) :
    alookup t (CurrencyObserver.unregister s st) =
      if s = t then none else alookup t st := by
  unfold CurrencyObserver.unregister
  by_cases h : containsKey s st
  · simp [h, alookup_dictRemove s t hnd]
  · rw [if_neg h]
    by_cases heq : s = t
    · subst heq
      rw [if_pos rfl]
      unfold containsKey at h
      cases hl : alookup s st with
      | none => rfl
      | some v => rw [hl] at h; simp at h
    · rw [if_neg heq]

theorem keysNodup_applyOp {st : List (String × String)} (op : RegistryOp)
    (hnd : KeysNodup st) : KeysNodup (applyOp st op) := by
  cases op with
  | reg s c => exact keysNodup_dictInsert s c hnd
  | unreg s =>
    unfold applyOp CurrencyObserver.unregister
    by_cases h : containsKey s st <;> simp [h]
    · exact keysNodup_dictRemove s hnd
    · exact hnd

theorem alookup_applyOp (st : List (String × String)) (op : RegistryOp)
    (sid : String) (hnd : KeysNodup st) :
    alookup sid (applyOp st op) =
      match op with
      | .reg s c => if s = sid then some c else alookup sid st
      | .unreg s => if s = sid then none else alookup sid st := by
  cases op with
  | reg s c => exact alookup_dictInsert s c sid st
  | unreg s => exact alookup_unregister s sid hnd

theorem keysNodup_applyOps (ops : List RegistryOp) :
    ∀ st, KeysNodup st → KeysNodup (applyOps st ops) := by
  induction ops with
  | nil => intro st h; exact h
  | cons op ops ih => intro st h; exact ih _ (keysNodup_applyOp op h)

theorem alookup_applyOps (ops : List RegistryOp) :
    ∀ (st : List (String × String)) (sid : String), KeysNodup st →
      alookup sid (applyOps st ops) = netEffectFrom sid (alookup sid st) ops := by
  induction ops with
  | nil => intro st sid _; rfl
  | cons op ops ih =>
    intro st sid hnd
    have h₁ : applyOps st (op :: ops) = applyOps (applyOp st op) ops := rfl
    have h₂ : netEffectFrom sid (alookup sid st) (op :: ops) =
        netEffectFrom sid (alookup sid (applyOp st op)) ops := by
      cases op with
      | reg s c => simp [netEffectFrom, alookup_applyOp st (.reg s c) sid hnd]
      | unreg s => simp [netEffectFrom, alookup_applyOp st (.unreg s) sid hnd]
    rw [h₁, h₂]
    exact ih _ sid (keysNodup_applyOp op hnd)

/-- C5: starting from the empty registry, after any finite sequence of
register/unregister calls the registry holds exactly the net effect of the
sequence: session ids are pairwise distinct (each appears at most once), and
`(sid, c)` is an entry iff the last operation touching `sid` was
`register(sid, c)` (a sid whose last operation was `unregister`, or that was
never touched, is absent). -/
theorem c5_registry_net_effect (ops : List RegistryOp) :
    KeysNodup (applyOps [] ops) ∧
    ∀ sid c, ((sid, c) ∈ applyOps [] ops ↔ netEffect sid ops = some c) := by
  have hnil : KeysNodup ([] : List (String × String)) := by simp [KeysNodup]
  have hnd : KeysNodup (applyOps [] ops) := keysNodup_applyOps ops [] hnil
  refine ⟨hnd, fun sid c => ?_⟩
  rw [mem_iff_alookup hnd, alookup_applyOps ops [] sid hnil]
  exact Iff.rfl

/-- C4: registering the same sessionId twice leaves exactly one entry for
it, holding the second currency (last write wins); entries of every other
sessionId are untouched. -/
theorem c4_register_last_write_wins (st : List (String × String))
    (s c₁ c₂ : String) (hnd : KeysNodup st) :
    alookup s (CurrencyObserver.register s c₂ (CurrencyObserver.register s c₁ st))
      = some c₂ ∧
    ((CurrencyObserver.register s c₂ (CurrencyObserver.register s c₁ st)).map
      Prod.fst).count s = 1 ∧
    ∀ t, t ≠ s →
      alookup t (CurrencyObserver.register s c₂ (CurrencyObserver.register s c₁ st))
        = alookup t st := by
  have hnd₁ : KeysNodup (CurrencyObserver.register s c₁ st) :=
    keysNodup_dictInsert s c₁ hnd
  have hnd₂ : KeysNodup (CurrencyObserver.register s c₂ (CurrencyObserver.register s c₁ st)) :=
    keysNodup_dictInsert s c₂ hnd₁
  have hl : alookup s (CurrencyObserver.register s c₂ (CurrencyObserver.register s c₁ st))
      = some c₂ := by
    unfold CurrencyObserver.register
    rw [alookup_dictInsert]
    simp
  refine ⟨hl, ?_, ?_⟩
  · have hmem : s ∈ (CurrencyObserver.register s c₂
        (CurrencyObserver.register s c₁ st)).map Prod.fst :=
      List.mem_map.mpr ⟨(s, c₂), alookup_mem hl, rfl⟩
    exact Nat.le_antisymm (List.nodup_iff_count_le_one.mp hnd₂ s)
      (List.count_pos_iff.mpr hmem)
  · intro t ht
    have hst : ¬ s = t := fun he => ht he.symm
    unfold CurrencyObserver.register
    rw [alookup_dictInsert, alookup_dictInsert, if_neg hst, if_neg hst]

/-- Witness for C4 at a concrete registry and sids. -/
theorem c4_register_last_write_wins_witness :
    alookup "b" (CurrencyObserver.register "b" "GBP"
      (CurrencyObserver.register "b" "EUR" [("a", "USD")])) = some "GBP" ∧
    ((CurrencyObserver.register "b" "GBP"
      (CurrencyObserver.register "b" "EUR" [("a", "USD")])).map Prod.fst).count "b" = 1 ∧
    alookup "a" (CurrencyObserver.register "b" "GBP"
      (CurrencyObserver.register "b" "EUR" [("a", "USD")])) = alookup "a" [("a", "USD")] := by
  have h := c4_register_last_write_wins [("a", "USD")] "b" "EUR" "GBP" (by decide)
  exact ⟨h.1, h.2.1, h.2.2 "a" (by decide)⟩

/-- C6: unregistering a sessionId that is not present in the registry is a
no-op — the registry is returned unchanged (and, in the source, the guarded
`del` is never reached, so nothing raises). -/
theorem c6_unregister_absent_noop (st : List (String × String)) (s : String)
    (h : alookup s st = none) : CurrencyObserver.unregister s st = st := by
  unfold CurrencyObserver.unregister containsKey
  rw [h]
  rfl

/-- Witness for C6 at a concrete registry. -/
theorem c6_unregister_absent_noop_witness :
    CurrencyObserver.unregister "x" [("a", "USD")] = [("a", "USD")] :=
  c6_unregister_absent_noop [("a", "USD")] "x" (by decide)

/-! ### Dispatch (notify) lemmas -/

theorem evalEntry_ok_some_fst {f : String → Bool} {data : Json} {sid code : String}
    {d : String × Payload} (h : evalEntry f data sid code = .ok (some d)) :
    d.1 = sid := by
  unfold evalEntry at h
  cases h₁ : pySubscript data "Valute" with
  | error e => rw [h₁] at h; simp at h
  | ok valute =>
    rw [h₁] at h
    dsimp only at h
    cases h₂ : pyContains valute code with
    | error e => rw [h₂] at h; simp at h
    | ok b =>
      rw [h₂] at h
      cases b with
      | false => simp at h
      | true =>
        dsimp only at h
        cases h₃ : pySubscript valute code with
        | error e => rw [h₃] at h; simp at h
        | ok info =>
          rw [h₃] at h
          dsimp only at h
          cases h₄ : pySubscript info "Value" with
          | error e => rw [h₄] at h; simp at h
          | ok v =>
            rw [h₄] at h
            dsimp only at h
            cases h₅ : pySubscript info "Previous" with
            | error e => rw [h₅] at h; simp at h
            | ok p =>
              rw [h₅] at h
              dsimp only at h
              by_cases h₆ : f sid = true
              · rw [if_pos h₆] at h; simp at h
              · rw [if_neg h₆] at h
                have hd : (sid, (⟨code, v, p⟩ : Payload)) = d :=
                  Option.some.inj (Except.ok.inj h)
                rw [← hd]

theorem sent_fst_sublist (f : String → Bool) (data : Json) :
    ∀ obs : List (String × String),
      ((notifyGo f data obs).1.map Prod.fst).Sublist (obs.map Prod.fst) := by
  intro obs
  induction obs with
  | nil => simp [notifyGo]
  | cons hd tl ih =>
    obtain ⟨sid, code⟩ := hd
    cases h : evalEntry f data sid code with
    | error e => simp [notifyGo, h]
    | ok o =>
      cases o with
      | none =>
        simp only [notifyGo, h, List.map_cons]
        exact ih.cons sid
      | some d =>
        have hd₁ : d.1 = sid := evalEntry_ok_some_fst h
        simp only [notifyGo, h, List.map_cons, hd₁]
        exact ih.cons₂ sid

theorem valuteWF_spec {valute : List (String × Json)} (h : valuteWF valute = true)
    {c : String} {info : Json} (hc : alookup c valute = some info) :
    (∃ v, pySubscript info "Value" = .ok v) ∧
    (∃ p, pySubscript info "Previous" = .ok p) := by
  have hmem : (c, info) ∈ valute := alookup_mem hc
  have hall := (List.all_eq_true.mp h) _ hmem
  simp only [Bool.and_eq_true] at hall
  constructor
  · cases hv : pySubscript info "Value" with
    | ok v => exact ⟨v, rfl⟩
    | error e => rw [hv] at hall; simp at hall
  · cases hp : pySubscript info "Previous" with
    | ok p => exact ⟨p, rfl⟩
    | error e => rw [hp] at hall; simp at hall

theorem evalEntry_wf (valute : List (String × Json)) (sid code : String)
    (f : String → Bool) :
    evalEntry f (Json.obj [("Valute", Json.obj valute)]) sid code =
      match alookup code valute with
      | none => .ok none
      | some info =>
        match pySubscript info "Value" with
        | .error e => .error e
        | .ok v =>
          match pySubscript info "Previous" with
          | .error e => .error e
          | .ok p =>
            if f sid then .error .emitError
            else .ok (some (sid, ⟨code, v, p⟩)) := by
  cases h : alookup code valute with
  | none => simp [evalEntry, pySubscript, pyContains, alookup, h]
  | some info => simp [evalEntry, pySubscript, pyContains, alookup, h]

theorem notifyGo_wf_no_exn (valute : List (String × Json)) (hwf : valuteWF valute = true) :
    ∀ obs : List (String × String),
      (notifyGo (fun _ => false) (Json.obj [("Valute", Json.obj valute)]) obs).2 = none := by
  intro obs
  induction obs with
  | nil => rfl
  | cons hd tl ih =>
    obtain ⟨sid, code⟩ := hd
    cases h : alookup code valute with
    | none =>
      simpa [notifyGo, evalEntry_wf, h] using ih
    | some info =>
      obtain ⟨⟨v, hv⟩, ⟨p, hp⟩⟩ := valuteWF_spec hwf h
      simpa [notifyGo, evalEntry_wf, h, hv, hp] using ih

theorem notifyGo_delivers (valute : List (String × Json)) (hwf : valuteWF valute = true)
    (sid code : String) (info v p : Json)
    (hc : alookup code valute = some info)
    (hv : pySubscript info "Value" = .ok v)
    (hp : pySubscript info "Previous" = .ok p) :
    ∀ obs : List (String × String), (sid, code) ∈ obs →
      (sid, (⟨code, v, p⟩ : Payload)) ∈
        (notifyGo (fun _ => false) (Json.obj [("Valute", Json.obj valute)]) obs).1 := by
  intro obs
  induction obs with
  | nil => intro h; simp at h
  | cons hd tl ih =>
    obtain ⟨s₀, c₀⟩ := hd
    intro hmem
    rcases List.mem_cons.mp hmem with heq | htl
    · have hs : s₀ = sid := (congrArg Prod.fst heq).symm
      have hc₀ : c₀ = code := (congrArg Prod.snd heq).symm
      subst hs; subst hc₀
      simp [notifyGo, evalEntry_wf, hc, hv, hp]
    · cases h₀ : alookup c₀ valute with
      | none =>
        simpa [notifyGo, evalEntry_wf, h₀] using ih htl
      | some info₀ =>
        obtain ⟨⟨v₀, hv₀⟩, ⟨p₀, hp₀⟩⟩ := valuteWF_spec hwf h₀
        simp [notifyGo, evalEntry_wf, h₀, hv₀, hp₀]
        exact Or.inr (ih htl)

theorem notifyGo_sent_sources (valute : List (String × Json)) (f : String → Bool) :
    ∀ (obs : List (String × String)) (sid : String) (pl : Payload),
      (sid, pl) ∈ (notifyGo f (Json.obj [("Valute", Json.obj valute)]) obs).1 →
      ∃ info, (sid, pl.currency_code) ∈ obs ∧
        alookup pl.currency_code valute = some info := by
  intro obs
  induction obs with
  | nil => intro sid pl h; simp [notifyGo] at h
  | cons hd tl ih =>
    obtain ⟨s₀, c₀⟩ := hd
    intro sid pl hmem
    cases h₀ : alookup c₀ valute with
    | none =>
      rw [show notifyGo f (Json.obj [("Valute", Json.obj valute)]) ((s₀, c₀) :: tl)
          = notifyGo f (Json.obj [("Valute", Json.obj valute)]) tl from by
        simp [notifyGo, evalEntry_wf, h₀]] at hmem
      obtain ⟨info, hin, hl⟩ := ih sid pl hmem
      exact ⟨info, List.mem_cons_of_mem _ hin, hl⟩
    | some info₀ =>
      cases hv₀ : pySubscript info₀ "Value" with
      | error e =>
        rw [show (notifyGo f (Json.obj [("Valute", Json.obj valute)]) ((s₀, c₀) :: tl)).1
            = [] from by simp [notifyGo, evalEntry_wf, h₀, hv₀]] at hmem
        simp at hmem
      | ok v₀ =>
        cases hp₀ : pySubscript info₀ "Previous" with
        | error e =>
          rw [show (notifyGo f (Json.obj [("Valute", Json.obj valute)]) ((s₀, c₀) :: tl)).1
              = [] from by simp [notifyGo, evalEntry_wf, h₀, hv₀, hp₀]] at hmem
          simp at hmem
        | ok p₀ =>
          by_cases hf : f s₀ = true
          · rw [show (notifyGo f (Json.obj [("Valute", Json.obj valute)]) ((s₀, c₀) :: tl)).1
                = [] from by simp [notifyGo, evalEntry_wf, h₀, hv₀, hp₀, hf]] at hmem
            simp at hmem
          · rw [show (notifyGo f (Json.obj [("Valute", Json.obj valute)]) ((s₀, c₀) :: tl)).1
                = (s₀, (⟨c₀, v₀, p₀⟩ : Payload)) ::
                  (notifyGo f (Json.obj [("Valute", Json.obj valute)]) tl).1 from by
              simp [notifyGo, evalEntry_wf, h₀, hv₀, hp₀, hf]] at hmem
            rcases List.mem_cons.mp hmem with heq | htl
            · have hs : sid = s₀ := congrArg Prod.fst heq
              have hpl : pl = (⟨c₀, v₀, p₀⟩ : Payload) := congrArg Prod.snd heq
              subst hs
              refine ⟨info₀, ?_, ?_⟩
              · rw [hpl]
                exact List.mem_cons_self _ _
              · rw [hpl]
                exact h₀
            · obtain ⟨info, hin, hl⟩ := ih sid pl htl
              exact ⟨info, List.mem_cons_of_mem _ hin, hl⟩

theorem notifyGo_error_at (f : String → Bool) (data : Json)
    (sid code : String) (e : PyErr) (post : List (String × String))
    (hfail : evalEntry f data sid code = .error e) :
    ∀ pre : List (String × String), (notifyGo f data pre).2 = none →
      notifyGo f data (pre ++ (sid, code) :: post) =
        ((notifyGo f data pre).1, some e) := by
  intro pre
  induction pre with
  | nil =>
    intro _
    simp [notifyGo, hfail]
  | cons hd tl ih =>
    obtain ⟨s₀, c₀⟩ := hd
    intro hpre
    cases h : evalEntry f data s₀ c₀ with
    | error e₀ =>
      exfalso
      simp [notifyGo, h] at hpre
    | ok o =>
      cases o with
      | none =>
        have hpre₂ : (notifyGo f data tl).2 = none := by
          simpa [notifyGo, h] using hpre
        simp [notifyGo, h, ih hpre₂]
      | some d =>
        have hpre₂ : (notifyGo f data tl).2 = none := by
          simpa [notifyGo, h] using hpre
        simp [notifyGo, h, ih hpre₂]

/-! ### Claim theorems for the dispatch cycle -/

/-- C1: with registry `[(s1,USD), (s2,GBP), (s3,USD)]` and the snapshot
holding USD at 90.0/89.5 and no GBP, one `notify` delivers exactly the USD
payload to s1 and to s3 and nothing to s2; and in general, over any
well-formed snapshot, every subscriber whose code is present receives the
payload built from that snapshot entry, while every subscriber whose code is
absent is silently skipped — not unregistered (registry unchanged), not
errored (no exception propagates). -/
theorem c1_dispatch_filtering :
    (CurrencyObserver.notify (fun _ => false)
        [("s1", "USD"), ("s2", "GBP"), ("s3", "USD")] goodData =
      ⟨[("s1", "USD"), ("s2", "GBP"), ("s3", "USD")],
       [("s1", ⟨"USD", Json.num 90, Json.num 89.5⟩),
        ("s3", ⟨"USD", Json.num 90, Json.num 89.5⟩)], none⟩) ∧
    ∀ (valute : List (String × Json)) (obs : List (String × String)),
      valuteWF valute = true → KeysNodup obs →
      (CurrencyObserver.notify (fun _ => false) obs
          (Json.obj [("Valute", Json.obj valute)])).exn = none ∧
      (CurrencyObserver.notify (fun _ => false) obs
          (Json.obj [("Valute", Json.obj valute)])).observers = obs ∧
      (∀ sid code info v p, (sid, code) ∈ obs → alookup code valute = some info →
        pySubscript info "Value" = .ok v → pySubscript info "Previous" = .ok p →
        (sid, (⟨code, v, p⟩ : Payload)) ∈
          (CurrencyObserver.notify (fun _ => false) obs
            (Json.obj [("Valute", Json.obj valute)])).sent) ∧
      (∀ sid code, (sid, code) ∈ obs → alookup code valute = none →
        sid ∉ ((CurrencyObserver.notify (fun _ => false) obs
          (Json.obj [("Valute", Json.obj valute)])).sent.map Prod.fst)) := by
  constructor
  · rfl
  · intro valute obs hwf hnd
    refine ⟨notifyGo_wf_no_exn valute hwf obs, rfl, ?_, ?_⟩
    · intro sid code info v p hmem hc hv hp
      exact notifyGo_delivers valute hwf sid code info v p hc hv hp obs hmem
    · intro sid code hmem hc hsent
      obtain ⟨⟨sid₂, pl⟩, hplmem, hfst⟩ := List.mem_map.mp hsent
      have hsid : sid₂ = sid := hfst
      subst hsid
      obtain ⟨info, hin, hl⟩ :=
        notifyGo_sent_sources valute (fun _ => false) obs sid₂ pl hplmem
      have h₁ : alookup sid₂ obs = some code := (mem_iff_alookup hnd).mp hmem
      have h₂ : alookup sid₂ obs = some pl.currency_code := (mem_iff_alookup hnd).mp hin
      rw [h₁] at h₂
      have hcode : code = pl.currency_code := Option.some.inj h₂
      rw [← hcode, hc] at hl
      exact Option.noConfusion hl

/-- Witness for C1's general part at a concrete registry and snapshot:
s1 (code present) is delivered the payload, s2 (code absent) is skipped. -/
theorem c1_dispatch_filtering_witness :
    ("s1", (⟨"USD", Json.num 90, Json.num 89.5⟩ : Payload)) ∈
      (CurrencyObserver.notify (fun _ => false) [("s1", "USD"), ("s2", "GBP")]
        (Json.obj [("Valute", Json.obj [("USD",
          Json.obj [("Value", Json.num 90), ("Previous", Json.num 89.5)])])])).sent ∧
    "s2" ∉ ((CurrencyObserver.notify (fun _ => false) [("s1", "USD"), ("s2", "GBP")]
        (Json.obj [("Valute", Json.obj [("USD",
          Json.obj [("Value", Json.num 90), ("Previous", Json.num 89.5)])])])).sent.map
        Prod.fst) := by
  have h := c1_dispatch_filtering.2
    [("USD", Json.obj [("Value", Json.num 90), ("Previous", Json.num 89.5)])]
    [("s1", "USD"), ("s2", "GBP")] rfl (by decide)
  exact ⟨h.2.2.1 "s1" "USD"
      (Json.obj [("Value", Json.num 90), ("Previous", Json.num 89.5)])
      (Json.num 90) (Json.num 89.5) (by simp) rfl rfl rfl,
    h.2.2.2 "s2" "GBP" (by simp) rfl⟩

/-- C2 as stated is false on the code: `currency_updater` runs
`get_currency_rates()` outside any `try`, so at this concrete input a
network failure makes the cycle raise and the loop fail to re-arm. -/
theorem c2_counterexample :
    ¬ ((currency_updater_step (.err .networkError) (fun _ => false)
          [("s1", "USD")]).exn = none ∧
       loopReArms (.err .networkError) (fun _ => false) [("s1", "USD")] = true) := by
  decide

/-- C2 amended: when the fetch fails, the cycle performs zero deliveries
(no partial notifications) and leaves the registry untouched, but the
exception propagates uncaught and the poll loop does not re-arm (the
updater thread terminates). -/
theorem c2_fetch_failure_aborts_cycle (e : PyErr) (emitFails : String → Bool)
    (observers : List (String × String)) :
    currency_updater_step (.err e) emitFails observers = ⟨observers, [], some e⟩ ∧
    loopReArms (.err e) emitFails observers = false :=
  ⟨rfl, rfl⟩

/-- C3 as stated is false on the code: `notify` has no `try` around
`observer.update`, so when delivery to s1 fails, the dispatch raises and s2
receives nothing in that cycle. -/
theorem c3_counterexample :
    ¬ ((CurrencyObserver.notify (fun s => s == "s1")
          [("s1", "USD"), ("s2", "USD")] goodData).exn = none ∧
       "s2" ∈ ((CurrencyObserver.notify (fun s => s == "s1")
          [("s1", "USD"), ("s2", "USD")] goodData).sent.map Prod.fst)) := by
  decide

/-- C3 amended: if the iteration for one subscriber raises (e.g. its
`socketio.emit` fails), the exception propagates out of `notify`; the
subscribers before it in iteration order keep their deliveries, and the
subscribers after it receive nothing in that cycle (the registry itself is
unchanged). -/
theorem c3_delivery_failure_propagates (f : String → Bool) (data : Json)
    (pre post : List (String × String)) (sid code : String) (e : PyErr)
    (hpre : (notifyGo f data pre).2 = none)
    (hfail : evalEntry f data sid code = .error e) :
    CurrencyObserver.notify f (pre ++ (sid, code) :: post) data =
      ⟨pre ++ (sid, code) :: post, (notifyGo f data pre).1, some e⟩ := by
  unfold CurrencyObserver.notify
  rw [notifyGo_error_at f data sid code e post hfail pre hpre]

/-- Witness for C3's amended statement: s0 is delivered, the emit for s1
raises, s2 gets nothing. -/
theorem c3_delivery_failure_propagates_witness :
    CurrencyObserver.notify (fun s => s == "s1")
        [("s0", "USD"), ("s1", "USD"), ("s2", "USD")] goodData =
      ⟨[("s0", "USD"), ("s1", "USD"), ("s2", "USD")],
       (notifyGo (fun s => s == "s1") goodData [("s0", "USD")]).1,
       some .emitError⟩ :=
  c3_delivery_failure_propagates (fun s => s == "s1") goodData
    [("s0", "USD")] [("s2", "USD")] "s1" "USD" .emitError rfl rfl

/-- C7: within one dispatch cycle every individual sessionId receives at
most one payload (delivered sids are drawn without repetition from the
registry's pairwise-distinct keys). -/
theorem c7_at_most_one_payload (f : String → Bool) (obs : List (String × String))
    (data : Json) (hnd : KeysNodup obs) (sid : String) :
    ((CurrencyObserver.notify f obs data).sent.map Prod.fst).count sid ≤ 1 := by
  have hsub : ((CurrencyObserver.notify f obs data).sent.map Prod.fst).Sublist
      (obs.map Prod.fst) := sent_fst_sublist f data obs
  have hnodup := List.Nodup.sublist hsub hnd
  exact List.nodup_iff_count_le_one.mp hnodup sid

/-- Witness for C7 at a concrete registry, snapshot and sid. -/
theorem c7_at_most_one_payload_witness :
    ((CurrencyObserver.notify (fun _ => false)
      [("s1", "USD"), ("s2", "GBP"), ("s3", "USD")] goodData).sent.map
      Prod.fst).count "s1" ≤ 1 :=
  c7_at_most_one_payload (fun _ => false)
    [("s1", "USD"), ("s2", "GBP"), ("s3", "USD")] goodData (by decide) "s1"

/-- C8 as stated is false on the code: `while True` has no `try`, so a
failing cycle (here a fetch failure) terminates the loop instead of
re-arming the timer. -/
theorem c8_counterexample :
    ¬ (loopReArms (.err .networkError) (fun _ => false) [] = true) := by
  decide

/-- C8 amended: the timer re-arms (reaches `time.sleep(10)` and the next
iteration) iff the cycle raised no exception; in particular a successful
fetch with zero registered subscribers always re-arms, and the period is the
fixed 10 units. -/
theorem c8_rearm_iff_no_exception :
    (∀ (fetch : FetchResult) (emitFails : String → Bool)
        (observers : List (String × String)),
      loopReArms fetch emitFails observers = true ↔
        (currency_updater_step fetch emitFails observers).exn = none) ∧
    (∀ (data : Json) (emitFails : String → Bool),
      loopReArms (.ok data) emitFails [] = true) ∧
    pollInterval = 10 := by
  refine ⟨?_, ?_, rfl⟩
  · intro fetch f obs
    exact Option.isNone_iff_eq_none
  · intro data f
    rfl

/-- C9: a dispatch cycle never mutates the registry — `notify` (and the
whole updater step, whatever the fetch outcome) returns the registry exactly
as it was; only `register` and `unregister` change it. -/
theorem c9_dispatch_preserves_registry (fetch : FetchResult)
    (emitFails : String → Bool) (observers : List (String × String))
    (data : Json) :
    (CurrencyObserver.notify emitFails observers data).observers = observers ∧
    (currency_updater_step fetch emitFails observers).observers = observers := by
  refine ⟨rfl, ?_⟩
  cases fetch <;> rfl

/-- C10: with an empty registry, `notify` performs no deliveries and raises
nothing for every input `data` whatsoever — the loop body that subscripts
`data['Valute']` is never entered, so even malformed data is never
inspected. -/
theorem c10_notify_empty_registry_total (emitFails : String → Bool) (data : Json) :
    CurrencyObserver.notify emitFails [] data = ⟨[], [], none⟩ :=
  rfl
